import Mathlib

/-!
Shallow embedding of the ripple-ldap plugin's authentication core
(`lib/ldap-auth.js`): configuration validation, the connect/bind/search
primitives, and the two authentication flows (`presenterAuth`,
`clientAuth`).  JavaScript strings are modelled as Lean `String`
(ultimately `List Char`); JavaScript objects with possibly-undefined
fields are modelled with `Option` fields, where `none` stands for
`undefined`/`null` and the JS truthiness test `!x` on a string field is
`none` or the empty string.  Each directory/store collaborator is an
oracle recorded in an `Env`, and every externally visible call the code
makes (directory bind, directory search, local lookup, local import,
disconnect, the final callback) is logged in an action trace so that
invocation-count and ordering properties can be stated.
-/

namespace RippleLDAP

/-- A JavaScript error object as used by the plugin: `{message, name}`. -/
structure ErrObj where
  message : String
  name : String
deriving DecidableEq

/-- The placeholder token `USER_ID = "{{user id}}"` from the source. -/
def USER_ID : String := "\x7b\x7buser id\x7d\x7d"

/-- The prefix `ACCOUNT_NAME_PREFIX = "LDAP-"` from the source (shortened Lean name). -/
def ACCOUNT_NAME_PRE : String := "LDAP-"

/-- The credentials object handed to `bind`: `{user, password}`. -/
structure Creds where
  user : String
  password : String
deriving DecidableEq

/-- The configuration record kept in `LDAPAuth.config`; each field can be
`undefined` (`none`). -/
structure Config where
  hostname : Option String
  bindDNFormat : Option String
  baseDN : Option String
  presenterFilter : Option String
  clientFilter : Option String
deriving DecidableEq

/-- JS falsiness of a possibly-undefined string field: `!v` holds for
`undefined`/`null` and for the empty string. -/
def jsFalsy : Option String → Bool
  | none => true
  | some s => s == ""

/-- Substring test, mirroring `str.indexOf(sub) != -1` in JS. -/
def hasSubstr (pat : List Char) : List Char → Bool
  | [] => pat.isEmpty
  | c :: rest => pat.isPrefixOf (c :: rest) || hasSubstr pat rest

/-- The test `s.indexOf(pat) != -1` lifted to `String`. -/
def strContains (s pat : String) : Bool := hasSubstr pat.data s.data

/-- Source function `validateConfiguration()`: returns the accumulated
list of error strings; `none` models a falsy `LDAPAuth.config`. -/
def validateConfiguration : Option Config → List String
  | none => ["No configuration has been loaded"]
  | some config =>
    (if jsFalsy config.hostname then ["Hostname is required"] else [])
    ++ (if jsFalsy config.bindDNFormat then ["Bind DN format is required"]
        else if !(strContains (config.bindDNFormat.getD "") USER_ID) then
          ["Invalid bindDN format - missing \"" ++ USER_ID ++ "\""]
        else [])
    ++ (if jsFalsy config.baseDN then ["Base DN is required"] else [])
    ++ (if jsFalsy config.presenterFilter then ["Presenter filter is required"]
        else if !(strContains (config.presenterFilter.getD "") USER_ID) then
          ["Invalid presenter filter format - missing \"" ++ USER_ID ++ "\""]
        else [])
    ++ (if jsFalsy config.clientFilter then ["Client filter is required"]
        else if !(strContains (config.clientFilter.getD "") USER_ID) then
          ["Invalid client filter format - missing \"" ++ USER_ID ++ "\""]
        else [])

/-- Source function `connect()`, as a state transformer on the client
handle: when validation reports errors it aborts and leaves the previous
handle state untouched; otherwise `ldap.createClient` succeeds and a
handle exists.  `true` means `LDAPAuth.client` is non-null. -/
def connect (config : Option Config) (clientBefore : Bool) : Bool :=
  if (validateConfiguration config).length > 0 then clientBefore else true

/-- Backtick character, used by the `$`-substitution of JS `replace`. -/
def backquoteChar : Char := Char.ofNat 96

/-- Single-quote character, used by the `$`-substitution of JS `replace`. -/
def squoteChar : Char := Char.ofNat 39

/-- The `GetSubstitution` step of JavaScript `String.prototype.replace`
with a string (non-regexp) pattern: in the replacement string, `$$` is a
literal dollar, `$&` the matched substring, a dollar followed by a
backquote the text before the match, a dollar followed by a quote the
text after the match; any other `$` sequence is literal (there are no
capture groups for a string pattern). -/
def substDollar (matched before after : List Char) : List Char → List Char
  | [] => []
  | [c] => [c]
  | c :: d :: rest =>
    if c = '$' then
      if d = '$' then d :: substDollar matched before after rest
      else if d = '&' then matched ++ substDollar matched before after rest
      else if d = backquoteChar then before ++ substDollar matched before after rest
      else if d = squoteChar then after ++ substDollar matched before after rest
      else c :: d :: substDollar matched before after rest
    else c :: substDollar matched before after (d :: rest)

/-- Split `s` around the first occurrence of `pat`: returns the part
before the match and the part after it, or `none` when `pat` does not
occur (`indexOf` returning `-1`). -/
def findSplit (pat : List Char) : List Char → Option (List Char × List Char)
  | [] => if pat.isEmpty then some ([], []) else none
  | c :: rest =>
    if pat.isPrefixOf (c :: rest) then some ([], (c :: rest).drop pat.length)
    else
      match findSplit pat rest with
      | some (pre, post) => some (c :: pre, post)
      | none => none

/-- JavaScript `s.replace(pat, repl)` with a string pattern: only the
FIRST occurrence of `pat` is replaced, and the replacement undergoes
`$`-substitution. -/
def jsReplaceL (s pat repl : List Char) : List Char :=
  match findSplit pat s with
  | none => s
  | some (pre, post) => pre ++ substDollar pat pre post repl ++ post

/-- JS `s.replace(pat, repl)` lifted to `String`. -/
def jsReplace (s pat repl : String) : String :=
  String.mk (jsReplaceL s.data pat.data repl.data)

/-- The mutable user object built by `getLDAPUser` and `presenterAuth`:
starts out as `{}` (all fields `undefined`) and is extended field by
field, exactly like the JS object. -/
structure UserRec where
  name : Option String := none
  email : Option String := none
  user : Option String := none
  pass : Option String := none
  external : Option Bool := none
deriving DecidableEq

/-- An event delivered by the search result emitter before the terminal
`end` event: either a `searchEntry` (with the entry's `displayName` and
`mail` attributes, possibly undefined) or an `error` event. -/
inductive SEvent where
  | entry (displayName : Option String) (mail : Option String)
  | errorEv (e : ErrObj)
deriving DecidableEq

/-- One externally visible call made by the plugin during an
authentication attempt, in program order. -/
inductive Action where
  | bindA (dn : String) (password : String)
  | searchA (base : Option String) (filterStr : String)
  | findA (localName : String)
  | importA (u : UserRec)
  | disconnectA
  | cbA (err : Option ErrObj) (user : Option UserRec)
deriving DecidableEq

/-- The oracles for one authentication attempt: the configuration and
prior client-handle state, plus the single completion each external
collaborator delivers (directory bind outcome, synchronous search error,
the stream of search events before `end`, the local lookup's callback
pair, and the local import's error). -/
structure Env where
  config : Config
  clientBefore : Bool
  dirBind : Option ErrObj
  searchSync : Option ErrObj
  searchEvents : List SEvent
  findErr : Option ErrObj
  findUser : Option UserRec
  importErr : Option ErrObj
deriving DecidableEq

/-- The error object built at source line 292. -/
def missingConnErr : ErrObj :=
  ⟨"LDAP connection was missing in authentication attempt", "MissingConnection"⟩

/-- The error object built at source line 297. -/
def badCredErr : ErrObj := ⟨"Bad credentials provided", "BadCredentials"⟩

/-- Source function `bind(auth, callback)`: calls `connect()`, then fails
with `MissingConnection` if no client handle exists, then with
`BadCredentials` on absent/empty credentials, and otherwise performs the
directory bind (substituting the username into `bindDNFormat`) and hands
its outcome to the callback unchanged.  Returns the callback's error
argument, the client state after `connect()`, and the trace of external
calls.  (When the directory bind is reached, a successful `connect`
guarantees `bindDNFormat` is present; `getD ""` stands for the
field access the JS performs there.) -/
def bind (cfg : Config) (clientBefore : Bool) (auth : Option Creds)
    (dirBind : Option ErrObj) : Option ErrObj × Bool × List Action :=
  let clientAfter := connect (some cfg) clientBefore
  if clientAfter = false then (some missingConnErr, clientAfter, [])
  else
    match auth with
    | none => (some badCredErr, clientAfter, [])
    | some a =>
      if a.password = "" ∨ a.user = "" then (some badCredErr, clientAfter, [])
      else
        (dirBind, clientAfter,
          [Action.bindA (jsReplace (cfg.bindDNFormat.getD "") USER_ID a.user) a.password])

/-- The event loop of `getLDAPUser`: the `error` handler overwrites the
latched `failure` on each error event, and the `searchEntry` handler
overwrites the record's `name`/`email` with each entry's attributes. -/
def runEvents : Option ErrObj → UserRec → List SEvent → Option ErrObj × UserRec
  | fail, u, [] => (fail, u)
  | _, u, SEvent.errorEv e :: rest => runEvents (some e) u rest
  | fail, u, SEvent.entry dn ml :: rest =>
      runEvents fail { u with name := dn, email := ml } rest

/-- Source function `getLDAPUser(auth, filter, callback)`: issues the
search with the placeholder-substituted filter against `config.baseDN`;
a synchronous error is passed through at once; otherwise the events run
and at `end` the callback receives the latched failure (with no record)
or the aggregated record.  `u` is `auth.user`. -/
def getLDAPUser (cfg : Config) (u : String) (filterArg : Option String)
    (syncErr : Option ErrObj) (events : List SEvent) :
    (Option ErrObj × Option UserRec) × List Action :=
  let act := Action.searchA cfg.baseDN (jsReplace (filterArg.getD "") USER_ID u)
  let res : Option ErrObj × Option UserRec :=
    match syncErr with
    | some e => (some e, none)
    | none =>
      match (runEvents none {} events).1 with
      | some e => (some e, none)
      | none => (none, some (runEvents none {} events).2)
  (res, [act])

/-- Reads `auth.user` as done after a successful bind (`bind` only succeeds
when the credentials object is present, so the `none` branch is
unreachable there). -/
def authUser : Option Creds → String
  | some a => a.user
  | none => ""

/-- Appends the trailing `disconnect` and caller-callback invocations
performed by the wrapped `callback` of `presenterAuth`/`clientAuth`. -/
def finish (p : (Option ErrObj × Option UserRec) × List Action) :
    (Option ErrObj × Option UserRec) × List Action :=
  (p.1, p.2 ++ [Action.disconnectA, Action.cbA p.1.1 p.1.2])

/-- The body of `presenterAuth` up to (but not including) the wrapped
callback: bind; swallow `InvalidCredentialsError`; propagate other bind
errors; otherwise search with the presenter filter, propagate search
errors, fall back on an unnamed record, and otherwise look up the local
`LDAP-`-prefixed user, returning it when found and importing the
directory record (with `user`/`pass`/`external` filled in) when not. -/
def presenterCore (env : Env) (auth : Option Creds) :
    (Option ErrObj × Option UserRec) × List Action :=
  let b := bind env.config env.clientBefore auth env.dirBind
  match b.1 with
  | some e =>
    if e.name = "InvalidCredentialsError" then ((none, none), b.2.2)
    else ((some e, none), b.2.2)
  | none =>
    let u := authUser auth
    let s := getLDAPUser env.config u env.config.presenterFilter env.searchSync env.searchEvents
    let acts := b.2.2 ++ s.2
    match s.1.1 with
    | some e => ((some e, none), acts)
    | none =>
      match s.1.2 with
      | none => ((none, none), acts)
      | some uD =>
        if jsFalsy uD.name then ((none, none), acts)
        else
          let localName := ACCOUNT_NAME_PRE ++ u
          let acts2 := acts ++ [Action.findA localName]
          match env.findUser with
          | some luser => ((env.findErr, some luser), acts2)
          | none =>
            let cand : UserRec :=
              { uD with user := some localName, pass := some "LDAP", external := some true }
            let acts3 := acts2 ++ [Action.importA cand]
            match env.importErr with
            | some e2 => ((some e2, some cand), acts3)
            | none => ((none, some cand), acts3)

/-- Source function `presenterAuth(auth, cb)`: the core flow with the
wrapping callback that always disconnects before firing `cb`. -/
def presenterAuth (env : Env) (auth : Option Creds) :
    (Option ErrObj × Option UserRec) × List Action :=
  finish (presenterCore env auth)

/-- The body of `clientAuth` up to the wrapped callback: any bind error
is fatal; on bind success the client-filter search's outcome is handed
back directly. -/
def clientCore (env : Env) (auth : Option Creds) :
    (Option ErrObj × Option UserRec) × List Action :=
  let b := bind env.config env.clientBefore auth env.dirBind
  match b.1 with
  | some e => ((some e, none), b.2.2)
  | none =>
    let u := authUser auth
    let s := getLDAPUser env.config u env.config.clientFilter env.searchSync env.searchEvents
    let acts := b.2.2 ++ s.2
    match s.1.1 with
    | some e => ((some e, none), acts)
    | none => ((none, s.1.2), acts)

/-- Source function `clientAuth(auth, cb)`: the core flow with the
wrapping callback that always disconnects before firing `cb`. -/
def clientAuth (env : Env) (auth : Option Creds) :
    (Option ErrObj × Option UserRec) × List Action :=
  finish (clientCore env auth)

/-- Recognizes directory-search invocations in a trace. -/
def isSearch : Action → Bool
  | Action.bindA _ _ => false
  | Action.searchA _ _ => true
  | Action.findA _ => false
  | Action.importA _ => false
  | Action.disconnectA => false
  | Action.cbA _ _ => false

/-- Recognizes local-import invocations in a trace. -/
def isImport : Action → Bool
  | Action.bindA _ _ => false
  | Action.searchA _ _ => false
  | Action.findA _ => false
  | Action.importA _ => true
  | Action.disconnectA => false
  | Action.cbA _ _ => false

/-- Recognizes `disconnect()` invocations in a trace. -/
def isDisc : Action → Bool
  | Action.bindA _ _ => false
  | Action.searchA _ _ => false
  | Action.findA _ => false
  | Action.importA _ => false
  | Action.disconnectA => true
  | Action.cbA _ _ => false

/-- Recognizes caller-callback invocations in a trace. -/
def isCb : Action → Bool
  | Action.bindA _ _ => false
  | Action.searchA _ _ => false
  | Action.findA _ => false
  | Action.importA _ => false
  | Action.disconnectA => false
  | Action.cbA _ _ => true

/-! ### Helper lemmas about the JS `replace` embedding -/

/-- A replacement string without a dollar sign undergoes no
`$`-substitution. -/
theorem substDollar_id : ∀ (repl : List Char), '$' ∉ repl →
    ∀ m b a, substDollar m b a repl = repl
  | [], _, _, _, _ => rfl
  | [_], _, _, _, _ => rfl
  | c :: d :: rest, h, m, b, a => by
    have hc : c ≠ '$' := fun hh => h (by simp [hh])
    have h2 : '$' ∉ d :: rest := fun hh => h (List.mem_cons_of_mem _ hh)
    simp only [substDollar, if_neg hc]
    rw [substDollar_id (d :: rest) h2 m b a]

/-- Function `findSplit` really splits the string around an occurrence of the
pattern. -/
theorem findSplit_sound (pat : List Char) :
    ∀ (s pre post : List Char), findSplit pat s = some (pre, post) →
      s = pre ++ pat ++ post
  | [], pre, post, h => by
    unfold findSplit at h
    split at h
    · rename_i hemp
      simp only [Option.some.injEq, Prod.mk.injEq] at h
      obtain ⟨h1, h2⟩ := h
      simp only [List.isEmpty_iff] at hemp
      simp [← h1, ← h2, hemp]
    · exact absurd h (by simp)
  | c :: rest, pre, post, h => by
    unfold findSplit at h
    split at h
    · rename_i hpref
      simp only [Option.some.injEq, Prod.mk.injEq] at h
      obtain ⟨h1, h2⟩ := h
      obtain ⟨t, ht⟩ := List.isPrefixOf_iff_prefix.mp hpref
      subst h1
      rw [← h2, ← ht, List.drop_left]
      simp
    · rename_i hpref
      cases hrec : findSplit pat rest with
      | none => rw [hrec] at h; exact absurd h (by simp)
      | some pr =>
        obtain ⟨pre', post'⟩ := pr
        rw [hrec] at h
        simp only [Option.some.injEq, Prod.mk.injEq] at h
        obtain ⟨h1, h2⟩ := h
        have ih := findSplit_sound pat rest pre' post' hrec
        subst h2
        rw [← h1, ih]
        simp

/-- Function `findSplit` finds the FIRST occurrence: any other decomposition has
the match at the same position or later. -/
theorem findSplit_first (pat : List Char) :
    ∀ (s pre post : List Char), findSplit pat s = some (pre, post) →
      ∀ pre1 post1, s = pre1 ++ pat ++ post1 → pre.length ≤ pre1.length
  | [], pre, post, h, pre1, post1, hdec => by
    unfold findSplit at h
    split at h
    · simp only [Option.some.injEq, Prod.mk.injEq] at h
      obtain ⟨h1, _⟩ := h
      simp [← h1]
    · exact absurd h (by simp)
  | c :: rest, pre, post, h, pre1, post1, hdec => by
    unfold findSplit at h
    split at h
    · simp only [Option.some.injEq, Prod.mk.injEq] at h
      obtain ⟨h1, _⟩ := h
      simp [← h1]
    · rename_i hpref
      cases hrec : findSplit pat rest with
      | none => rw [hrec] at h; exact absurd h (by simp)
      | some pr =>
        obtain ⟨pre', post'⟩ := pr
        rw [hrec] at h
        simp only [Option.some.injEq, Prod.mk.injEq] at h
        obtain ⟨h1, _⟩ := h
        cases pre1 with
        | nil =>
          exfalso
          apply hpref
          apply List.isPrefixOf_iff_prefix.mpr
          exact ⟨post1, by simpa using hdec.symm⟩
        | cons c1 pre1' =>
          have htl : rest = pre1' ++ pat ++ post1 := by
            have := congrArg List.tail hdec
            simpa using this
          have ih := findSplit_first pat rest pre' post' hrec pre1' post1 htl
          rw [← h1]
          simpa using ih

/-- When the pattern occurs in the string, `findSplit` succeeds. -/
theorem findSplit_exists (pat : List Char) (hne : pat ≠ []) :
    ∀ (s : List Char), hasSubstr pat s = true →
      ∃ pre post, findSplit pat s = some (pre, post)
  | [], hocc => by
    exfalso
    rw [hasSubstr, List.isEmpty_iff] at hocc
    exact hne hocc
  | c :: rest, hocc => by
    rw [hasSubstr, Bool.or_eq_true] at hocc
    by_cases hpref : pat.isPrefixOf (c :: rest)
    · exact ⟨[], (c :: rest).drop pat.length, by simp [findSplit, hpref]⟩
    · have hrest : hasSubstr pat rest = true := by
        rcases hocc with h1 | h1
        · exact absurd h1 hpref
        · exact h1
      obtain ⟨pre, post, hrec⟩ := findSplit_exists pat hne rest hrest
      exact ⟨c :: pre, post, by simp [findSplit, hpref, hrec]⟩

/-! ### Helper lemmas about traces -/

/-- The trace of `bind` contains no search, import, disconnect or
callback action (at most a single directory-bind action). -/
theorem bind_trace_counts (cfg : Config) (before : Bool) (auth : Option Creds)
    (dirBind : Option ErrObj) :
    ((bind cfg before auth dirBind).2.2.countP isDisc = 0) ∧
    ((bind cfg before auth dirBind).2.2.countP isCb = 0) ∧
    ((bind cfg before auth dirBind).2.2.countP isSearch = 0) ∧
    ((bind cfg before auth dirBind).2.2.countP isImport = 0) := by
  rcases auth with _ | a
  · by_cases h1 : connect (some cfg) before = false <;> simp [bind, h1]
  · by_cases h1 : connect (some cfg) before = false
    · simp [bind, h1]
    · by_cases h2 : a.password = "" ∨ a.user = ""
      · simp [bind, h1, h2]
      · simp [bind, h1, h2, isDisc, isCb, isSearch, isImport]

/-- The trace of `getLDAPUser` is exactly one search action. -/
theorem getLDAPUser_trace (cfg : Config) (u : String) (filterArg : Option String)
    (syncErr : Option ErrObj) (events : List SEvent) :
    (getLDAPUser cfg u filterArg syncErr events).2
      = [Action.searchA cfg.baseDN (jsReplace (filterArg.getD "") USER_ID u)] := rfl

/-- Neither core flow ever disconnects or fires the caller's callback
itself; those are done exclusively by the wrapping callback. -/
theorem presenterCore_clean (env : Env) (auth : Option Creds) :
    (presenterCore env auth).2.countP isDisc = 0 ∧
    (presenterCore env auth).2.countP isCb = 0 := by
  obtain ⟨hd, hc, _, _⟩ := bind_trace_counts env.config env.clientBefore auth env.dirBind
  simp only [presenterCore, getLDAPUser_trace]
  split
  · split <;> exact ⟨hd, hc⟩
  · split
    · simp [List.countP_append, List.countP_cons, hd, hc, isDisc, isCb]
    · split
      · simp [List.countP_append, List.countP_cons, hd, hc, isDisc, isCb]
      · split
        · simp [List.countP_append, List.countP_cons, hd, hc, isDisc, isCb]
        · split
          · simp [List.countP_append, List.countP_cons, hd, hc, isDisc, isCb]
          · split <;>
              simp [List.countP_append, List.countP_cons, hd, hc, isDisc, isCb]

/-- Same as `presenterCore_clean` for the client flow. -/
theorem clientCore_clean (env : Env) (auth : Option Creds) :
    (clientCore env auth).2.countP isDisc = 0 ∧
    (clientCore env auth).2.countP isCb = 0 := by
  obtain ⟨hd, hc, _, _⟩ := bind_trace_counts env.config env.clientBefore auth env.dirBind
  simp only [clientCore, getLDAPUser_trace]
  split
  · exact ⟨hd, hc⟩
  · split <;> simp [List.countP_append, List.countP_cons, hd, hc, isDisc, isCb]

/-! ### Helper lemmas about the search event loop -/

/-- Once a failure is latched and every further error event carries the
same error, the loop ends with that failure. -/
theorem runEvents_keep (e : ErrObj) :
    ∀ (evs : List SEvent) (u : UserRec),
      (∀ e2, SEvent.errorEv e2 ∈ evs → e2 = e) →
      (runEvents (some e) u evs).1 = some e
  | [], _, _ => rfl
  | SEvent.errorEv e2 :: rest, u, h => by
    have he : e2 = e := h e2 (by simp)
    rw [runEvents, he]
    exact runEvents_keep e rest u fun e3 h3 => h e3 (List.mem_cons_of_mem _ h3)
  | SEvent.entry dn ml :: rest, u, h => by
    rw [runEvents]
    exact runEvents_keep e rest _ fun e3 h3 => h e3 (List.mem_cons_of_mem _ h3)

/-- If an error event fires (and all error events carry the same error),
the loop ends with that error, whatever fired before or after. -/
theorem runEvents_err (e : ErrObj) :
    ∀ (evs : List SEvent) (f : Option ErrObj) (u : UserRec),
      SEvent.errorEv e ∈ evs →
      (∀ e2, SEvent.errorEv e2 ∈ evs → e2 = e) →
      (runEvents f u evs).1 = some e
  | [], _, _, hmem, _ => absurd hmem (by simp)
  | SEvent.errorEv e2 :: rest, f, u, hmem, h => by
    have he : e2 = e := h e2 (by simp)
    rw [runEvents, he]
    exact runEvents_keep e rest u fun e3 h3 => h e3 (List.mem_cons_of_mem _ h3)
  | SEvent.entry dn ml :: rest, f, u, hmem, h => by
    rw [runEvents]
    have hmem' : SEvent.errorEv e ∈ rest := by
      rcases List.mem_cons.mp hmem with h1 | h1
      · exact absurd h1 (by simp)
      · exact h1
    exact runEvents_err e rest f _ hmem' fun e3 h3 => h e3 (List.mem_cons_of_mem _ h3)

/-! ### Concrete fixtures -/

/-- A complete, valid configuration. -/
def cfgOK : Config :=
  ⟨some "ldaps://h", some ("CN=" ++ USER_ID), some "DC=x",
   some ("(uid=" ++ USER_ID ++ ")"), some ("(uid=" ++ USER_ID ++ ")")⟩

/-- A configuration with every field absent (fails validation). -/
def cfgBad : Config := ⟨none, none, none, none, none⟩

/-- A valid configuration whose bind-DN template contains the
placeholder token twice. -/
def cfgTwo : Config :=
  ⟨some "ldaps://h", some (USER_ID ++ "A" ++ USER_ID), some "DC=x",
   some ("(uid=" ++ USER_ID ++ ")"), some ("(uid=" ++ USER_ID ++ ")")⟩

/-- A pre-provisioned local user stored under the name `LDAP-alice`. -/
def fakeUser : UserRec :=
  ⟨some "Joebob", some "j@x.com", some "LDAP-alice", some "LDAP", some true⟩

/-- The directory-reported invalid-credentials error. -/
def invCredErr : ErrObj := ⟨"Invalid credentials", "InvalidCredentialsError"⟩

/-- Environment for the claim-1 scenario: valid configuration, the
directory bind succeeds, the local store contains `LDAP-alice`, and the
presenter-filter search streams no entries (the filter excludes the
user — exactly the pre-provisioned-account situation the spec
describes). -/
def envC1 : Env := ⟨cfgOK, false, none, none, [], none, some fakeUser, none⟩

/-- As `envC1` but the search finds a (named) directory record. -/
def envC1' : Env :=
  ⟨cfgOK, false, none, none, [SEvent.entry (some "Full Name") (some "e@x.com")],
   none, some fakeUser, none⟩

/-! ### The claims -/

/-- C1: the claim says that whenever bind succeeds and a local user
named `LDAP-` + username exists, `presenterAuth` returns that local user
verbatim with no error and `getLDAPUser` is never invoked.  The code
does the opposite: it always invokes the directory search first, and
when the search yields an unnamed record it falls back with
`(no error, no user)` without ever consulting the local store — even
though `test/ldap-auth.js` asserts `getLDAPUser.callCount == 0` and that
the stored local user is returned.  This theorem evaluates the code at
the failing input: the local store contains `fakeUser` under
`LDAP-alice`, bind succeeds, yet the result is `(none, none)` (not the
local user) and the search trace count is `1`, not `0`; even in the
favorable case where the search finds a record (`envC1'`), so that the
local user IS returned, the search has still been invoked once. -/
theorem claim1_code_divergence :
    envC1.findUser = some fakeUser ∧
    (presenterAuth envC1 (some ⟨"alice", "pw"⟩)).1 = (none, none) ∧
    (presenterAuth envC1 (some ⟨"alice", "pw"⟩)).1 ≠ (none, some fakeUser) ∧
    (presenterAuth envC1 (some ⟨"alice", "pw"⟩)).2.countP isSearch = 1 ∧
    (presenterAuth envC1' (some ⟨"alice", "pw"⟩)).1 = (none, some fakeUser) ∧
    (presenterAuth envC1' (some ⟨"alice", "pw"⟩)).2.countP isSearch = 1 := by
  refine ⟨rfl, by decide, by decide, by decide, by decide, by decide⟩

/-- C2 counterexample: the claim says the placeholder substitution
performed by `bind` on `bindDNFormat` replaces EVERY occurrence of
`"{{user id}}"`.  With a template containing the token twice, the DN
actually handed to the directory bind still contains the token: only the
first occurrence was replaced (JavaScript `String.prototype.replace`
with a string pattern), so the result differs from the
every-occurrence substitution `"aliceAalice"`. -/
theorem claim2_counterexample :
    (bind cfgTwo true (some ⟨"alice", "pw"⟩) none).2.2
      = [Action.bindA ("aliceA" ++ USER_ID) "pw"] ∧
    ("aliceA" ++ USER_ID : String) ≠ "aliceAalice" := by
  refine ⟨by decide, by decide⟩

/-- C2 (amended): the placeholder substitution used by `bind` and
`getLDAPUser` (`jsReplace`, i.e. JS `template.replace(USER_ID, user)`)
replaces the FIRST occurrence of the placeholder token with the
username, leaving all other characters of the template unchanged —
later occurrences are not replaced; stated for usernames containing no
dollar sign (which JS `replace` treats specially in the replacement). -/
theorem claim2_first_occurrence (s pat user : List Char)
    (hne : pat ≠ []) (hd : '$' ∉ user) (hocc : hasSubstr pat s = true) :
    ∃ pre post, s = pre ++ pat ++ post ∧
      (∀ pre1 post1, s = pre1 ++ pat ++ post1 → pre.length ≤ pre1.length) ∧
      jsReplaceL s pat user = pre ++ user ++ post := by
  obtain ⟨pre, post, hsplit⟩ := findSplit_exists pat hne s hocc
  refine ⟨pre, post, findSplit_sound pat s pre post hsplit,
    findSplit_first pat s pre post hsplit, ?_⟩
  unfold jsReplaceL
  rw [hsplit]
  simp only []
  rw [substDollar_id user hd]

/-- Witness for `claim2_first_occurrence` at a concrete template,
placeholder and username. -/
theorem claim2_witness :
    USER_ID.data ≠ [] ∧ '$' ∉ "alice".data ∧
      hasSubstr USER_ID.data ("CN=" ++ USER_ID ++ ",DC=x").data = true ∧
      (∃ pre post, ("CN=" ++ USER_ID ++ ",DC=x").data = pre ++ USER_ID.data ++ post ∧
        (∀ pre1 post1, ("CN=" ++ USER_ID ++ ",DC=x").data = pre1 ++ USER_ID.data ++ post1 →
          pre.length ≤ pre1.length) ∧
        jsReplaceL ("CN=" ++ USER_ID ++ ",DC=x").data USER_ID.data "alice".data
          = pre ++ "alice".data ++ post) :=
  ⟨by decide, by decide, by decide,
    claim2_first_occurrence _ _ _ (by decide) (by decide) (by decide)⟩

/-- C3: when the directory bind reports `InvalidCredentialsError`
(connection present, well-formed credentials, directory answers with the
invalid-credentials error), `presenterAuth` returns `(no error, no
user)` — falling back to local authentication — while `clientAuth`
returns that same error as a hard failure with no user and never invokes
the directory search. -/
theorem claim3_invalid_credentials_policy (env : Env) (a : Creds) (e : ErrObj)
    (hconn : connect (some env.config) env.clientBefore = true)
    (hpw : a.password ≠ "") (hu : a.user ≠ "")
    (hdir : env.dirBind = some e)
    (hname : e.name = "InvalidCredentialsError") :
    (presenterAuth env (some a)).1 = (none, none) ∧
    (clientAuth env (some a)).1 = (some e, none) ∧
    (clientAuth env (some a)).2.countP isSearch = 0 := by
  have hb : bind env.config env.clientBefore (some a) env.dirBind
      = (some e, true,
          [Action.bindA (jsReplace (env.config.bindDNFormat.getD "") USER_ID a.user)
            a.password]) := by
    rw [hdir]
    simp [bind, hconn, hpw, hu]
  refine ⟨?_, ?_, ?_⟩
  · simp [presenterAuth, presenterCore, finish, hb, hname]
  · simp [clientAuth, clientCore, finish, hb]
  · simp [clientAuth, clientCore, finish, hb, List.countP_cons, isSearch]

/-- Witness for `claim3_invalid_credentials_policy`: a concrete valid
configuration, the credentials `alice`/`pw`, and a directory-reported
invalid-credentials error. -/
theorem claim3_witness :
    connect (some (⟨cfgOK, false, some invCredErr, none, [], none, none, none⟩ : Env).config)
        false = true ∧
    (presenterAuth ⟨cfgOK, false, some invCredErr, none, [], none, none, none⟩
        (some ⟨"alice", "pw"⟩)).1 = (none, none) ∧
    (clientAuth ⟨cfgOK, false, some invCredErr, none, [], none, none, none⟩
        (some ⟨"alice", "pw"⟩)).1 = (some invCredErr, none) ∧
    (clientAuth ⟨cfgOK, false, some invCredErr, none, [], none, none, none⟩
        (some ⟨"alice", "pw"⟩)).2.countP isSearch = 0 := by
  have h := claim3_invalid_credentials_policy
    ⟨cfgOK, false, some invCredErr, none, [], none, none, none⟩
    ⟨"alice", "pw"⟩ invCredErr (by decide) (by decide) (by decide) rfl rfl
  exact ⟨by decide, h.1, h.2.1, h.2.2⟩

/-- C4: on every execution of `presenterAuth` and of `clientAuth` —
whatever branch is taken — `disconnect()` is invoked exactly once, and
it is invoked immediately before the caller's callback fires with the
final result: the trace always ends `[disconnect, callback(err, user)]`
and contains no other disconnect or callback invocation. -/
theorem claim4_disconnect_once (env : Env) (auth : Option Creds) :
    (∃ pre, (presenterAuth env auth).2
        = pre ++ [Action.disconnectA,
            Action.cbA (presenterAuth env auth).1.1 (presenterAuth env auth).1.2] ∧
      pre.countP isDisc = 0 ∧ pre.countP isCb = 0) ∧
    (∃ pre, (clientAuth env auth).2
        = pre ++ [Action.disconnectA,
            Action.cbA (clientAuth env auth).1.1 (clientAuth env auth).1.2] ∧
      pre.countP isDisc = 0 ∧ pre.countP isCb = 0) := by
  refine ⟨⟨(presenterCore env auth).2, rfl, (presenterCore_clean env auth).1,
    (presenterCore_clean env auth).2⟩,
    ⟨(clientCore env auth).2, rfl, (clientCore_clean env auth).1,
    (clientCore_clean env auth).2⟩⟩

/-- C5: if an `error` event fires at any point before `end` (all error
events carrying the error `e`), the final result `getLDAPUser` passes to
its callback is that error with no user record — regardless of any
`searchEntry` events fired before or after it. -/
theorem claim5_search_error_latched (cfg : Config) (u : String)
    (filterArg : Option String) (events : List SEvent) (e : ErrObj)
    (hmem : SEvent.errorEv e ∈ events)
    (huniq : ∀ e2, SEvent.errorEv e2 ∈ events → e2 = e) :
    (getLDAPUser cfg u filterArg none events).1 = (some e, none) := by
  have hr : (runEvents none {} events).1 = some e :=
    runEvents_err e events none {} hmem huniq
  simp only [getLDAPUser]
  rw [hr]

/-- Witness for `claim5_search_error_latched`: an entry fires, then the
error, then another entry; the result is the error and no record. -/
theorem claim5_witness :
    SEvent.errorEv invCredErr ∈
        [SEvent.entry (some "n") (some "m"), SEvent.errorEv invCredErr,
          SEvent.entry (some "n2") (some "m2")] ∧
    (getLDAPUser cfgOK "alice" (some ("(uid=" ++ USER_ID ++ ")")) none
        [SEvent.entry (some "n") (some "m"), SEvent.errorEv invCredErr,
          SEvent.entry (some "n2") (some "m2")]).1 = (some invCredErr, none) :=
  ⟨by decide,
    claim5_search_error_latched cfgOK "alice" (some ("(uid=" ++ USER_ID ++ ")"))
      [SEvent.entry (some "n") (some "m"), SEvent.errorEv invCredErr,
        SEvent.entry (some "n2") (some "m2")] invCredErr (by decide)
      (by intro e2 h2; simpa using h2)⟩

/-- C6: `bind` first fails with the `MissingConnection` error when
`connect()` leaves no client handle; with a handle, it fails with the
`BadCredentials` error when the credentials object is absent or has an
empty user or password; otherwise it performs the directory bind with
the substituted DN and hands the directory's outcome to the callback
unchanged (`none` on success). -/
theorem claim6_bind_errors (cfg : Config) (before : Bool)
    (auth : Option Creds) (dirBind : Option ErrObj) :
    (connect (some cfg) before = false →
      bind cfg before auth dirBind = (some missingConnErr, false, [])) ∧
    (connect (some cfg) before = true →
      (auth = none ∨ ∃ a, auth = some a ∧ (a.password = "" ∨ a.user = "")) →
      bind cfg before auth dirBind = (some badCredErr, true, [])) ∧
    (connect (some cfg) before = true →
      ∀ a, auth = some a → a.password ≠ "" → a.user ≠ "" →
      bind cfg before auth dirBind
        = (dirBind, true,
            [Action.bindA (jsReplace (cfg.bindDNFormat.getD "") USER_ID a.user)
              a.password])) := by
  refine ⟨?_, ?_, ?_⟩
  · intro h
    rcases auth with _ | a
    · simp [bind, h]
    · by_cases h2 : a.password = "" ∨ a.user = "" <;> simp [bind, h, h2]
  · intro h hbad
    rcases hbad with h0 | ⟨a, ha, hbad⟩
    · subst h0; simp [bind, h]
    · subst ha; simp [bind, h, hbad]
  · intro h a ha hpw hu
    subst ha
    simp [bind, h, hpw, hu]

/-- Witness for `claim6_bind_errors`: all three branches at concrete
inputs — invalid configuration gives `MissingConnection`, an empty
password gives `BadCredentials`, and with good credentials the
directory's invalid-credentials outcome is passed through unchanged. -/
theorem claim6_witness :
    bind cfgBad false (some ⟨"alice", "pw"⟩) none = (some missingConnErr, false, []) ∧
    bind cfgOK false (some ⟨"alice", ""⟩) none = (some badCredErr, true, []) ∧
    (bind cfgOK false (some ⟨"alice", "pw"⟩) (some invCredErr)).1 = some invCredErr := by
  refine ⟨(claim6_bind_errors cfgBad false (some ⟨"alice", "pw"⟩) none).1 (by decide),
    (claim6_bind_errors cfgOK false (some ⟨"alice", ""⟩) none).2.1 (by decide)
      (Or.inr ⟨⟨"alice", ""⟩, rfl, Or.inl rfl⟩), ?_⟩
  rw [(claim6_bind_errors cfgOK false (some ⟨"alice", "pw"⟩) (some invCredErr)).2.2
    (by decide) ⟨"alice", "pw"⟩ rfl (by decide) (by decide)]

/-- C7: for a configuration that is complete (all other fields present,
templates containing the placeholder) except for exactly one required
field being absent, `validateConfiguration` returns exactly one error,
and that error names the missing field; in particular the placeholder
check of a missing template field is skipped (no second error for that
field). -/
theorem claim7_missing_field_single_error (hn bdn bd pf cf : String)
    (h1 : hn ≠ "") (h2 : strContains bdn USER_ID = true) (h3 : bd ≠ "")
    (h4 : strContains pf USER_ID = true) (h5 : strContains cf USER_ID = true) :
    validateConfiguration (some ⟨none, some bdn, some bd, some pf, some cf⟩)
      = ["Hostname is required"] ∧
    validateConfiguration (some ⟨some hn, none, some bd, some pf, some cf⟩)
      = ["Bind DN format is required"] ∧
    validateConfiguration (some ⟨some hn, some bdn, none, some pf, some cf⟩)
      = ["Base DN is required"] ∧
    validateConfiguration (some ⟨some hn, some bdn, some bd, none, some cf⟩)
      = ["Presenter filter is required"] ∧
    validateConfiguration (some ⟨some hn, some bdn, some bd, some pf, none⟩)
      = ["Client filter is required"] := by
  have hb2 : bdn ≠ "" := by
    intro hh; subst hh; exact absurd h2 (by decide)
  have hp2 : pf ≠ "" := by
    intro hh; subst hh; exact absurd h4 (by decide)
  have hc2 : cf ≠ "" := by
    intro hh; subst hh; exact absurd h5 (by decide)
  refine ⟨?_, ?_, ?_, ?_, ?_⟩ <;>
    simp [validateConfiguration, jsFalsy, h1, h2, h3, h4, h5, hb2, hp2, hc2]

/-- Witness for `claim7_missing_field_single_error` at concrete field
values. -/
theorem claim7_witness :
    ("h" : String) ≠ "" ∧ strContains USER_ID USER_ID = true ∧
    validateConfiguration (some ⟨none, some USER_ID, some "b", some USER_ID, some USER_ID⟩)
      = ["Hostname is required"] ∧
    validateConfiguration (some ⟨some "h", none, some "b", some USER_ID, some USER_ID⟩)
      = ["Bind DN format is required"] ∧
    validateConfiguration (some ⟨some "h", some USER_ID, none, some USER_ID, some USER_ID⟩)
      = ["Base DN is required"] ∧
    validateConfiguration (some ⟨some "h", some USER_ID, some "b", none, some USER_ID⟩)
      = ["Presenter filter is required"] ∧
    validateConfiguration (some ⟨some "h", some USER_ID, some "b", some USER_ID, none⟩)
      = ["Client filter is required"] := by
  have h := claim7_missing_field_single_error "h" USER_ID "b" USER_ID USER_ID
    (by decide) (by decide) (by decide) (by decide) (by decide)
  exact ⟨by decide, by decide, h.1, h.2.1, h.2.2.1, h.2.2.2.1, h.2.2.2.2⟩

/-- C8: when bind succeeds, no local user `LDAP-alice` exists, and the
presenter search streams one entry with displayName `"Full Name"` and
mail `"e@x.com"` for username `"alice"`, the import is invoked exactly
once, with a candidate whose name is `"Full Name"`, email `"e@x.com"`,
user `"LDAP-alice"`, pass `"LDAP"` and external flag true; the final
result of `presenterAuth` is exactly what the callback of the local
store delivered to the import — its error (if any) together with that
candidate record. -/
theorem claim8_import_candidate (cfg : Config) (before : Bool) (pw : String)
    (ferr importErr : Option ErrObj)
    (hb : (bind cfg before (some ⟨"alice", pw⟩) none).1 = none) :
    (presenterAuth
        ⟨cfg, before, none, none, [SEvent.entry (some "Full Name") (some "e@x.com")],
          ferr, none, importErr⟩ (some ⟨"alice", pw⟩)).1
      = (importErr,
          some ⟨some "Full Name", some "e@x.com", some "LDAP-alice", some "LDAP",
            some true⟩) ∧
    (presenterAuth
        ⟨cfg, before, none, none, [SEvent.entry (some "Full Name") (some "e@x.com")],
          ferr, none, importErr⟩ (some ⟨"alice", pw⟩)).2.countP isImport = 1 ∧
    Action.importA
        ⟨some "Full Name", some "e@x.com", some "LDAP-alice", some "LDAP", some true⟩
      ∈ (presenterAuth
          ⟨cfg, before, none, none, [SEvent.entry (some "Full Name") (some "e@x.com")],
            ferr, none, importErr⟩ (some ⟨"alice", pw⟩)).2 := by
  obtain ⟨_, _, _, hi⟩ := bind_trace_counts cfg before (some ⟨"alice", pw⟩) none
  have hS : (getLDAPUser cfg "alice" cfg.presenterFilter none
      [SEvent.entry (some "Full Name") (some "e@x.com")]).1
      = (none, some ⟨some "Full Name", some "e@x.com", none, none, none⟩) := rfl
  simp only [presenterAuth, presenterCore, finish, getLDAPUser_trace]
  rw [hb]
  simp only [authUser, hS]
  have hfn : jsFalsy (some "Full Name") = false := by decide
  cases importErr <;>
    simp [hfn, ACCOUNT_NAME_PRE, List.countP_append, List.countP_cons, hi,
      isImport, USER_ID]

/-- Witness for `claim8_import_candidate` with the valid concrete
configuration and a successful import. -/
theorem claim8_witness :
    (bind cfgOK false (some ⟨"alice", "pw"⟩) none).1 = none ∧
    (presenterAuth
        ⟨cfgOK, false, none, none, [SEvent.entry (some "Full Name") (some "e@x.com")],
          none, none, none⟩ (some ⟨"alice", "pw"⟩)).1
      = (none,
          some ⟨some "Full Name", some "e@x.com", some "LDAP-alice", some "LDAP",
            some true⟩) :=
  ⟨by decide,
    (claim8_import_candidate cfgOK false "pw" none none (by decide)).1⟩

/-- C9: when bind succeeds and the client search completes with zero
`searchEntry` events and no `error` event, `clientAuth` returns `(no
error, empty record)`: the empty record (no name, no email) is handed to
the host as the authenticated user rather than rejected — there is no
empty-record/NotFound check in the client flow. -/
theorem claim9_empty_record_accepted (cfg : Config) (before : Bool)
    (auth : Option Creds)
    (hb : (bind cfg before auth none).1 = none) :
    (clientAuth ⟨cfg, before, none, none, [], none, none, none⟩ auth).1
      = (none, some ⟨none, none, none, none, none⟩) := by
  simp only [clientAuth, clientCore, finish, getLDAPUser_trace]
  rw [hb]
  rfl

/-- Witness for `claim9_empty_record_accepted` at the concrete valid
configuration. -/
theorem claim9_witness :
    (bind cfgOK false (some ⟨"alice", "pw"⟩) none).1 = none ∧
    (clientAuth ⟨cfgOK, false, none, none, [], none, none, none⟩
        (some ⟨"alice", "pw"⟩)).1 = (none, some ⟨none, none, none, none, none⟩) :=
  ⟨by decide,
    claim9_empty_record_accepted cfgOK false (some ⟨"alice", "pw"⟩) (by decide)⟩

/-- C10: the missing-connection check precedes the credentials check in
`bind`: when `connect()` leaves no client handle and the credentials are
also absent or have an empty user or password field, the error is the
`MissingConnection` one, never the `BadCredentials` one. -/
theorem claim10_missing_connection_first (cfg : Config) (before : Bool)
    (auth : Option Creds) (dirBind : Option ErrObj)
    (hconn : connect (some cfg) before = false)
    (hbad : auth = none ∨ ∃ a, auth = some a ∧ (a.password = "" ∨ a.user = "")) :
    (bind cfg before auth dirBind).1 = some missingConnErr ∧
    (bind cfg before auth dirBind).1 ≠ some badCredErr := by
  have h : bind cfg before auth dirBind = (some missingConnErr, false, []) := by
    rcases auth with _ | a
    · simp [bind, hconn]
    · by_cases h2 : a.password = "" ∨ a.user = "" <;> simp [bind, hconn, h2]
  rw [h]
  exact ⟨rfl, by decide⟩

/-- Witness for `claim10_missing_connection_first`: invalid
configuration together with fully empty credentials still yields
`MissingConnection`. -/
theorem claim10_witness :
    connect (some cfgBad) false = false ∧
    (bind cfgBad false (some ⟨"", ""⟩) none).1 = some missingConnErr ∧
    (bind cfgBad false (some ⟨"", ""⟩) none).1 ≠ some badCredErr := by
  have h := claim10_missing_connection_first cfgBad false (some ⟨"", ""⟩) none
    (by decide) (Or.inr ⟨⟨"", ""⟩, rfl, Or.inl rfl⟩)
  exact ⟨by decide, h.1, h.2⟩

end RippleLDAP
